import Mathlib

/-!
Shallow embedding of `src/server.ts` (the Catalyst HTTP facade).

The TypeScript source is embedded as executable Lean definitions:

* JavaScript string builtins (`toLowerCase`, `trim`, `includes`,
  `startsWith`, `encodeURIComponent`, truthiness of strings under `||`)
  are modelled as char-list functions with the same behaviour on the
  inputs the server handles.
* `Array.prototype.sort` with comparator `(a, b) => b.length - a.length`
  is stable (ES2019), so its result is the unique stable
  descending-by-length ordering; `sortByLengthDesc` is a stable insertion
  sort realising exactly that ordering.
* `JSON.parse` is a JavaScript builtin, not repository code; the result
  of `JSON.parse(stdout.trim())` is passed to the close handler as an
  explicit `Option Json` argument (`none` when parsing throws).
* Reading the host environment (`os.platform`, `which`, `os.userInfo`)
  is impure; those values are passed in as parameters (`whichFn`,
  `username`, `EnvSnapshot`), matching the snapshot-at-startup design.
* Express responses are modelled as records of the status code and the
  JSON fields the handlers set.
-/

namespace Catalyst

/-- ASCII lowercasing of one char, as `String.prototype.toLowerCase`
acts on the ASCII inputs used by the server. -/
def jsCharLower (c : Char) : Char :=
  if c.toNat ≥ 65 && c.toNat ≤ 90 then Char.ofNat (c.toNat + 32) else c

/-- JS `text.toLowerCase()`. -/
def jsToLower (s : String) : String :=
  String.mk (s.toList.map jsCharLower)

/-- JS `text.trim()`: drop whitespace from both ends. -/
def jsTrim (s : String) : String :=
  String.mk (((s.toList.dropWhile Char.isWhitespace).reverse.dropWhile
      Char.isWhitespace).reverse)

/-- JS `s.startsWith(pre)`. -/
def jsStartsWith (s pre : String) : Bool :=
  pre.toList.isPrefixOf s.toList

/-- Helper for `jsIncludes`: is `sub` a contiguous run inside the list? -/
def hasSubAux (sub : List Char) : List Char → Bool
  | [] => sub.isEmpty
  | c :: rest => sub.isPrefixOf (c :: rest) || hasSubAux sub rest

/-- JS `s.includes(sub)`. -/
def jsIncludes (s sub : String) : Bool :=
  hasSubAux sub.toList s.toList

/-- JS `a || b` on strings: the empty string is the only falsy string. -/
def jsOrStr (a b : String) : String :=
  if a == "" then b else a

/-- JS `opt || b` where `opt` may be `undefined` (an absent field). -/
def jsOrOpt (v : Option String) (d : String) : String :=
  match v with
  | some s => jsOrStr s d
  | none => d

/-- Characters `encodeURIComponent` leaves unescaped. -/
def isUriUnescaped (c : Char) : Bool :=
  c.isAlpha || c.isDigit ||
    c == '-' || c == '_' || c == '.' || c == '!' || c == '~' ||
    c == '*' || c == '\'' || c == '(' || c == ')'

/-- Upper-case hex digit for a value below 16. -/
def hexDigitChar (n : Nat) : Char :=
  if n < 10 then Char.ofNat (48 + n) else Char.ofNat (55 + n)

/-- UTF-8 bytes of a Unicode scalar value. -/
def utf8Bytes (n : Nat) : List Nat :=
  if n < 128 then [n]
  else if n < 2048 then [192 + n / 64, 128 + n % 64]
  else if n < 65536 then [224 + n / 4096, 128 + (n / 64) % 64, 128 + n % 64]
  else [240 + n / 262144, 128 + (n / 4096) % 64, 128 + (n / 64) % 64, 128 + n % 64]

/-- Percent-escape of one byte, e.g. 32 ↦ `%20`. -/
def percentByte (b : Nat) : List Char :=
  ['%', hexDigitChar (b / 16), hexDigitChar (b % 16)]

/-- JS `encodeURIComponent(s)`. -/
def encodeURIComponent (s : String) : String :=
  String.mk ((s.toList.map (fun c =>
    if isUriUnescaped c then [c]
    else ((utf8Bytes c.toNat).map percentByte).flatten)).flatten)

/-- The three OS families `detectOS` distinguishes
(`'linux' | 'macos' | 'windows'` in the source). -/
inductive OSKind where
  | linux
  | macos
  | windows
deriving DecidableEq, Repr

/-- Display name of an OS family, as interpolated into template strings. -/
def osLabel : OSKind → String
  | .linux => "linux"
  | .macos => "macos"
  | .windows => "windows"

/-- The Linux `candidateMap` of `buildBrowserCommand`: for each logical
browser name, binaries to probe in order of preference. -/
def linuxCandidateMap : List (String × List String) :=
  [("brave", ["brave", "brave-browser"]),
   ("chrome", ["google-chrome", "google-chrome-stable", "chromium", "chromium-browser"]),
   ("chromium", ["chromium", "chromium-browser"]),
   ("firefox", ["firefox"]),
   ("edge", ["microsoft-edge", "microsoft-edge-stable"])]

/-- Candidate binaries probed for a (lowercased) hint on Linux:
`candidateMap[hint] ?? [hint]`. -/
def linuxCandidates (hint : String) : List String :=
  (linuxCandidateMap.lookup hint).getD [hint]

/-- The error message thrown when an explicitly requested browser has no
installed candidate binary on Linux. -/
def browserNotFoundMsg (browserHint : String) (installedBrowsers : List String) : String :=
  "Browser \"" ++ browserHint ++ "\" was not found on this system.\n" ++
  "Installed browsers: " ++ jsOrStr (String.intercalate ", " installedBrowsers) "none detected" ++ "\n" ++
  "Tip: If Brave is installed via Snap, make sure /snap/bin is in your PATH."

/-- The macOS app-name map of `buildBrowserCommand`. -/
def macAppMap : List (String × String) :=
  [("brave", "Brave Browser"), ("chrome", "Google Chrome"), ("firefox", "Firefox"),
   ("safari", "Safari"), ("edge", "Microsoft Edge")]

/-- The Windows binary map of `buildBrowserCommand`. -/
def windowsBinMap : List (String × String) :=
  [("brave", "brave"), ("chrome", "chrome"), ("firefox", "firefox"), ("edge", "msedge")]

/-- `buildBrowserCommand(browserHint, url, currentOS)`.  The impure
`which` probe is passed in as `whichFn`, and the startup-detected
`INSTALLED_BROWSERS` list (used only in the error message) as
`installedBrowsers`.  A thrown `Error` is modelled as `Except.error`
carrying the message. -/
def buildBrowserCommand (whichFn : String → Bool) (installedBrowsers : List String)
    (browserHint url : String) (currentOS : OSKind) : Except String (List String) :=
  let hint := jsToLower browserHint
  match currentOS with
  | .linux =>
    match (linuxCandidates hint).find? whichFn with
    | some found => .ok [found, url]
    | none => .error (browserNotFoundMsg browserHint installedBrowsers)
  | .macos =>
    match macAppMap.lookup hint with
    | some appName => .ok ["open", "-a", appName, url]
    | none => .ok ["open", url]
  | .windows =>
    .ok ["cmd", "/c", "start", (windowsBinMap.lookup hint).getD "start", url]

/-- `SITE_SHORTCUTS`, in source insertion order.  The runtime value
`os.userInfo().username` is a parameter. -/
def SITE_SHORTCUTS (username : String) : List (String × String) :=
  [("my github profile", "https://github.com/" ++ username),
   ("github", "https://github.com"),
   ("youtube", "https://youtube.com"),
   ("google", "https://google.com"),
   ("gmail", "https://mail.google.com"),
   ("twitter", "https://twitter.com"),
   ("x", "https://x.com"),
   ("reddit", "https://reddit.com"),
   ("stackoverflow", "https://stackoverflow.com"),
   ("linkedin", "https://linkedin.com"),
   ("notion", "https://notion.so"),
   ("vercel", "https://vercel.com")]

/-- Stable insertion of `x` into a list sorted by length descending:
among equal lengths `x` goes first, since in the stable sort it precedes
every element inserted from further right. -/
def insertLongerFirst (x : String) : List String → List String
  | [] => [x]
  | y :: ys => if y.length ≤ x.length then x :: y :: ys else y :: insertLongerFirst x ys

/-- `keys.sort((a, b) => b.length - a.length)`: ES2019 `Array.prototype.sort`
is stable, and a stable insertion sort with the same comparator yields the
identical ordering. -/
def sortByLengthDesc : List String → List String
  | [] => []
  | x :: xs => insertLongerFirst x (sortByLengthDesc xs)

/-- The TLD alternation of the bare-domain regex
`/^[\w-]+\.(com|io|org|net|dev|co|app)/`. -/
def KNOWN_TLDS : List String :=
  ["com", "io", "org", "net", "dev", "co", "app"]

/-- A char matched by the regex class `[\w-]`. -/
def isWordDashChar (c : Char) : Bool :=
  c.isAlpha || c.isDigit || c == '_' || c == '-'

/-- The test `/^[\w-]+\.(com|io|org|net|dev|co|app)/.test(lower)`.  The
class `[\w-]` excludes `'.'`, so the `+` must consume exactly the leading
run of class chars, which must be followed by `'.'` and then by one of
the TLD alternatives (as a prefix; the regex has no end anchor). -/
def domainLike (s : String) : Bool :=
  match s.toList.takeWhile isWordDashChar, s.toList.dropWhile isWordDashChar with
  | [], _ => false
  | _ :: _, '.' :: rest => KNOWN_TLDS.any (fun t => t.toList.isPrefixOf rest)
  | _ :: _, _ => false

/-- `resolveUrl`, generalised over the shortcut table so that statements
about table order can be made; the server always passes
`SITE_SHORTCUTS`. -/
def resolveUrlWith (table : List (String × String)) (text : String) : String :=
  let lower := jsTrim (jsToLower text)
  if jsStartsWith lower "http://" || jsStartsWith lower "https://" then jsTrim text
  else
    match (sortByLengthDesc (table.map Prod.fst)).find? (fun key => jsIncludes lower key) with
    | some key => (table.lookup key).getD ""
    | none =>
      if domainLike lower then "https://" ++ lower
      else (table.lookup "google").getD "" ++ "/search?q=" ++ encodeURIComponent text

/-- `resolveUrl(text)` of the source, over the real `SITE_SHORTCUTS`. -/
def resolveUrl (username : String) (text : String) : String :=
  resolveUrlWith (SITE_SHORTCUTS username) text

/-- The fixed browser-name list scanned by `extractBrowserName`. -/
def BROWSER_NAMES : List String :=
  ["brave", "chrome", "chromium", "firefox", "safari", "edge"]

/-- `extractBrowserName(text)`: first listed browser name contained in
the lowercased text, else `null`. -/
def extractBrowserName (text : String) : Option String :=
  BROWSER_NAMES.find? (fun b => jsIncludes (jsToLower text) b)

/-- Response of `POST /open-browser`: HTTP status plus the JSON fields
set by the handler (`none` for fields absent in the error response). -/
structure OpenBrowserResponse where
  status : Nat
  success : Bool
  output : String
  url : Option String
  browser : Option String
  command : Option String
deriving DecidableEq, Repr

/-- The `POST /open-browser` handler.  The detached `spawn` has no
observable effect on the response beyond the echoed `command` field. -/
def openBrowserHandler (whichFn : String → Bool) (installedBrowsers : List String)
    (username : String) (currentOS : OSKind) (prompt : String) : OpenBrowserResponse :=
  let browserName := (extractBrowserName prompt).getD "default"
  let url := resolveUrl username prompt
  let cmdE : Except String (List String) :=
    if browserName == "default" then
      .ok (match currentOS with
        | .linux => ["xdg-open", url]
        | .macos => ["open", url]
        | .windows => ["cmd", "/c", "start", url])
    else buildBrowserCommand whichFn installedBrowsers browserName url currentOS
  match cmdE with
  | .ok cmdArgs =>
    { status := 200, success := true,
      output := "Opened " ++ url ++ " in " ++
        (if browserName == "default" then "default browser" else browserName),
      url := some url, browser := some browserName,
      command := some (String.intercalate " " cmdArgs) }
  | .error msg =>
    { status := 400, success := false, output := msg,
      url := none, browser := none, command := none }

/-- JSON values, the possible results of the builtin `JSON.parse`
(numbers approximated by integers; no claim involves them). -/
inductive Json where
  | null
  | bool (b : Bool)
  | num (n : Int)
  | str (s : String)
  | arr (elems : List Json)
  | obj (fields : List (String × Json))

/-- JS property access `j.key`: `none` models `undefined` (missing field
or non-object receiver other than `null`). -/
def Json.getField : Json → String → Option Json
  | .obj fields, key => fields.lookup key
  | _, _ => none

/-- JS `v ?? fallback`: nullish coalescing over a possibly-absent
(`none` = `undefined`) and possibly-`null` value. -/
def jsNullish (v : Option Json) (fallback : Json) : Json :=
  match v with
  | some Json.null => fallback
  | some j => j
  | none => fallback

/-- Response sent by the `gemini.on('close')` handler: HTTP status,
`success`, `output` (a JSON value: the parsed `response` field, or a
string), and the optional `stats` passthrough. -/
structure CloseResponse where
  status : Nat
  success : Bool
  output : Json
  stats : Option Json

/-- Template interpolation `` `${code}` `` for `code: number | null`. -/
def codeString : Option Int → String
  | some n => toString n
  | none => "null"

/-- The `catch` branch of the close handler: exit code 0 with non-empty
stdout is still a success, anything else is a 500 with the best
available diagnostic text. -/
def closeFallback (code : Option Int) (stdout stderr : String) : CloseResponse :=
  if (code == some 0) && (jsTrim stdout != "") then
    { status := 200, success := true, output := .str (jsTrim stdout), stats := none }
  else
    { status := 500, success := false,
      output := .str (jsOrStr (jsOrStr (jsTrim stderr) (jsTrim stdout))
        ("Gemini exited with code " ++ codeString code)),
      stats := none }

/-- The `gemini.on('close')` handler.  `parsed` is the result of the
builtin `JSON.parse(stdout.trim())`, `none` when parsing throws.  When
the parse yields `null`, the property access `parsed.response` itself
throws inside the `try`, landing in the same `catch` branch. -/
def onGeminiClose (code : Option Int) (stdout stderr : String)
    (parsed : Option Json) : CloseResponse :=
  match parsed with
  | some Json.null => closeFallback code stdout stderr
  | some p =>
    { status := 200, success := true,
      output := jsNullish (p.getField "response") (.str (jsTrim stdout)),
      stats := p.getField "stats" }
  | none => closeFallback code stdout stderr

/-- A Node spawn error as observed by `gemini.on('error')`: the optional
`errno` code and the message. -/
structure SpawnErr where
  code : Option String
  message : String
deriving DecidableEq, Repr

/-- A status-plus-JSON response whose `output` is a plain string (used
by the spawn-error handler and the unknown-action echo). -/
structure TextResponse where
  status : Nat
  success : Bool
  output : String
deriving DecidableEq, Repr

/-- The `gemini.on('error')` handler: `ENOENT` gets the install
instructions, every other launch error its own message. -/
def onSpawnError (err : SpawnErr) : TextResponse :=
  { status := 500, success := false,
    output :=
      if err.code == some "ENOENT" then
        "Gemini CLI not found. Install: npm install -g @google/gemini-cli"
      else err.message }

/-- The `options` object of a `/do-something` request; every field is
optional (`none` = absent). -/
structure AgentOptions where
  mode : Option String := none
  user : Option String := none
  prompt : Option String := none
  cwd : Option String := none
  model : Option String := none
deriving DecidableEq, Repr

/-- A `/do-something` request body. -/
structure RequestPayload where
  action : String
  options : Option AgentOptions := none
deriving DecidableEq, Repr

/-- The immutable environment snapshot taken at process start. -/
structure EnvSnapshot where
  currentOS : OSKind
  username : String
  homeDir : String
  projectDir : String
  installedBrowsers : List String
deriving DecidableEq, Repr

/-- `buildContextBlock()`: the context preamble prepended to every agent
prompt.  The wall-clock reading `new Date().toISOString()` is the `now`
parameter. -/
def buildContextBlock (env : EnvSnapshot) (now : String) : String :=
  let openCmd : String :=
    match env.currentOS with
    | .linux => "xdg-open"
    | .macos => "open"
    | .windows => "start"
  "[CATALYST CONTEXT — already injected, do NOT mention or describe this block in your response]\n" ++
  "OS: " ++ osLabel env.currentOS ++ "\n" ++
  "Shell: " ++ (if env.currentOS == .windows then "cmd/powershell" else "bash") ++ "\n" ++
  "Username: " ++ env.username ++ "\n" ++
  "Home directory: " ++ env.homeDir ++ "\n" ++
  "Project directory (this is what \"here\", \"this folder\", \"current folder\" refers to): " ++ env.projectDir ++ "\n" ++
  "Current time: " ++ now ++ "\n" ++
  "Installed browsers: " ++ jsOrStr (String.intercalate ", " env.installedBrowsers) "unknown" ++ "\n" ++
  "Default open command: " ++ openCmd ++ "\n" ++
  "Browser commands (linux): brave→brave-browser | chrome→google-chrome | firefox→firefox | edge→microsoft-edge\n" ++
  "[END CONTEXT]\n\nUser instruction: "

/-- What the `/do-something` handler does synchronously: either respond
at once (no process spawned) or spawn the agent executable with the
given argv and working directory. -/
inductive DoSomethingStep where
  | respond (r : TextResponse)
  | spawnAgent (exe : String) (args : List String) (cwd : String)
deriving DecidableEq, Repr

/-- The `POST /do-something` handler up to its first effect.  `now` is
the clock reading inside `buildContextBlock`, `timestamp` the one taken
at request entry. -/
def doSomethingHandler (env : EnvSnapshot) (now timestamp : String)
    (payload : RequestPayload) : DoSomethingStep :=
  if payload.action != "launch_gemini" then
    .respond
      { status := 200, success := true,
        output := "Action \"" ++ payload.action ++ "\" received at " ++ timestamp }
  else
    let rawPrompt := jsOrOpt (payload.options.bind (fun o => o.prompt))
      "Just print the word Hello, nothing else."
    let model := jsOrOpt (payload.options.bind (fun o => o.model)) "gemini-2.0-flash"
    let workDir := jsOrOpt (payload.options.bind (fun o => o.cwd)) env.projectDir
    let enrichedPrompt := buildContextBlock env now ++ rawPrompt
    .spawnAgent "gemini"
      ["-m", model, "-y", "--output-format", "json", "-p", enrichedPrompt] workDir

end Catalyst

namespace Catalyst

/-! ## Helper lemmas -/

theorem toList_append (s t : String) : (s ++ t).toList = s.toList ++ t.toList :=
  String.data_append s t

theorem hasSubAux_iff (sub : List Char) (l : List Char) :
    hasSubAux sub l = true ↔ sub <:+: l := by
  induction l with
  | nil => simp [hasSubAux, List.isEmpty_iff, List.infix_nil]
  | cons c rest ih =>
    simp [hasSubAux, List.isPrefixOf_iff_prefix, ih, List.infix_cons_iff]

theorem jsIncludes_iff (s sub : String) :
    jsIncludes s sub = true ↔ sub.toList <:+: s.toList :=
  hasSubAux_iff sub.toList s.toList

theorem jsIncludes_empty (s : String) : jsIncludes s "" = true :=
  (jsIncludes_iff s "").mpr List.nil_infix

theorem insertLongerFirst_perm (x : String) (l : List String) :
    (insertLongerFirst x l).Perm (x :: l) := by
  induction l with
  | nil => simp [insertLongerFirst]
  | cons y ys ih =>
    by_cases h : y.length ≤ x.length
    · simp [insertLongerFirst, h]
    · simp only [insertLongerFirst, if_neg h]
      exact (List.Perm.cons y ih).trans (List.Perm.swap x y ys)

theorem sortByLengthDesc_perm (l : List String) : (sortByLengthDesc l).Perm l := by
  induction l with
  | nil => simp [sortByLengthDesc]
  | cons x xs ih =>
    exact (insertLongerFirst_perm x (sortByLengthDesc xs)).trans (List.Perm.cons x ih)

theorem pairwise_insertLongerFirst (x : String) {l : List String}
    (hpw : l.Pairwise (fun a b => b.length ≤ a.length)) :
    (insertLongerFirst x l).Pairwise (fun a b => b.length ≤ a.length) := by
  induction l with
  | nil => simp [insertLongerFirst]
  | cons y ys ih =>
    obtain ⟨hy, hys⟩ := List.pairwise_cons.mp hpw
    by_cases h : y.length ≤ x.length
    · simp only [insertLongerFirst, if_pos h]
      refine List.pairwise_cons.mpr ⟨?_, hpw⟩
      intro z hz
      rcases List.mem_cons.mp hz with rfl | hz2
      · exact h
      · exact le_trans (hy z hz2) h
    · simp only [insertLongerFirst, if_neg h]
      refine List.pairwise_cons.mpr ⟨?_, ih hys⟩
      intro z hz
      rcases List.mem_cons.mp ((insertLongerFirst_perm x ys).mem_iff.mp hz) with rfl | hz2
      · omega
      · exact hy z hz2

theorem sortByLengthDesc_sorted (l : List String) :
    (sortByLengthDesc l).Pairwise (fun a b => b.length ≤ a.length) := by
  induction l with
  | nil => simp [sortByLengthDesc]
  | cons x xs ih => exact pairwise_insertLongerFirst x ih

theorem find?_first_longest {p : String → Bool} {k : String} :
    ∀ {l : List String}, l.Pairwise (fun a b => b.length ≤ a.length) → k ∈ l → p k = true →
      (∀ x ∈ l, x ≠ k → p x = true → x.length < k.length) → l.find? p = some k := by
  intro l
  induction l with
  | nil => intro _ hk _ _; exact absurd hk (List.not_mem_nil k)
  | cons a xs ih =>
    intro hpw hk hpk hlong
    by_cases hpa : p a = true
    · have hak : a = k := by
        by_contra hne
        have hlt : a.length < k.length := hlong a (List.mem_cons_self a xs) hne hpa
        have hk2 : k ∈ xs := by
          rcases List.mem_cons.mp hk with rfl | h
          · exact absurd rfl hne
          · exact h
        have hle : k.length ≤ a.length := (List.pairwise_cons.mp hpw).1 k hk2
        omega
      subst hak
      exact List.find?_cons_of_pos xs hpa
    · have hak : k ≠ a := by
        rintro rfl
        exact hpa hpk
      have hk2 : k ∈ xs := by
        rcases List.mem_cons.mp hk with rfl | h
        · exact absurd rfl hak
        · exact h
      rw [List.find?_cons_of_neg xs hpa]
      exact ih (List.pairwise_cons.mp hpw).2 hk2 hpk
        (fun x hx hne hpx => hlong x (List.mem_cons_of_mem a hx) hne hpx)

theorem lookup_of_nodup_mem {k v : String} :
    ∀ {table : List (String × String)}, (table.map Prod.fst).Nodup → (k, v) ∈ table →
      table.lookup k = some v := by
  intro table
  induction table with
  | nil => intro _ h; exact absurd h (List.not_mem_nil _)
  | cons q rest ih =>
    intro hnd hm
    obtain ⟨a, b⟩ := q
    simp only [List.map_cons, List.nodup_cons] at hnd
    obtain ⟨ha, hnd2⟩ := hnd
    by_cases hka : k = a
    · subst hka
      have hvb : v = b := by
        rcases List.mem_cons.mp hm with heq | hrest
        · exact congrArg Prod.snd heq
        · exact absurd (List.mem_map.mpr ⟨(k, v), hrest, rfl⟩) ha
      subst hvb
      simp [List.lookup]
    · have htail : rest.lookup k = some v := by
        apply ih hnd2
        rcases List.mem_cons.mp hm with heq | hrest
        · exact absurd (congrArg Prod.fst heq) hka
        · exact hrest
      have hbeq : (k == a) = false := beq_eq_false_iff_ne.mpr hka
      simp [List.lookup, hbeq, htail]

theorem resolveUrlWith_finds_longest (table : List (String × String)) (text k v : String)
    (hnodup : (table.map Prod.fst).Nodup)
    (hmem : (k, v) ∈ table)
    (h1 : jsStartsWith (jsTrim (jsToLower text)) "http://" = false)
    (h2 : jsStartsWith (jsTrim (jsToLower text)) "https://" = false)
    (hmatch : jsIncludes (jsTrim (jsToLower text)) k = true)
    (hlongest : ∀ p ∈ table, p.1 ≠ k → jsIncludes (jsTrim (jsToLower text)) p.1 = true →
      p.1.length < k.length) :
    resolveUrlWith table text = v := by
  have hfind : (sortByLengthDesc (table.map Prod.fst)).find?
      (fun key => jsIncludes (jsTrim (jsToLower text)) key) = some k := by
    apply find?_first_longest (sortByLengthDesc_sorted _)
    · exact (sortByLengthDesc_perm _).mem_iff.mpr (List.mem_map.mpr ⟨(k, v), hmem, rfl⟩)
    · exact hmatch
    · intro x hx hne hpx
      obtain ⟨q, hq, rfl⟩ := List.mem_map.mp ((sortByLengthDesc_perm _).mem_iff.mp hx)
      exact hlongest q hq hne hpx
  simp only [resolveUrlWith, h1, h2, Bool.or_self, Bool.false_eq_true, if_false, hfind]
  simp [lookup_of_nodup_mem hnodup hmem]

end Catalyst

namespace Catalyst

/-! ## Claim theorems -/

/-- C1 (amended): for input text that does not start with `http://` or
`https://` after lowercasing and trimming, contains no shortcut-table
key as a substring of its lowercased form, and does not match the
bare-domain pattern, `resolveUrl` returns the search-engine query URL
built from the URL-escaped original text.  (The claim's concrete
example `"asdkjh random text"` does not satisfy these hypotheses: it
contains the shortcut key `x`; see the counterexample theorem.) -/
theorem resolveUrl_search_fallback (username text : String)
    (h1 : jsStartsWith (jsTrim (jsToLower text)) "http://" = false)
    (h2 : jsStartsWith (jsTrim (jsToLower text)) "https://" = false)
    (hnokey : ∀ p ∈ SITE_SHORTCUTS username, jsIncludes (jsTrim (jsToLower text)) p.1 = false)
    (hnodom : domainLike (jsTrim (jsToLower text)) = false) :
    resolveUrl username text = "https://google.com/search?q=" ++ encodeURIComponent text := by
  have hfind : (sortByLengthDesc ((SITE_SHORTCUTS username).map Prod.fst)).find?
      (fun key => jsIncludes (jsTrim (jsToLower text)) key) = none := by
    apply List.find?_eq_none.mpr
    intro x hx
    obtain ⟨q, hq, rfl⟩ := List.mem_map.mp ((sortByLengthDesc_perm _).mem_iff.mp hx)
    simp [hnokey q hq]
  simp only [resolveUrl, resolveUrlWith, h1, h2, Bool.or_self, Bool.false_eq_true,
    if_false, hfind, hnodom]
  rfl

/-- Witness for C1's amended theorem at the concrete input `"hello"`,
which contains no shortcut key and no domain pattern. -/
theorem resolveUrl_search_fallback_witness :
    resolveUrl "u" "hello" = "https://google.com/search?q=" ++ encodeURIComponent "hello" :=
  resolveUrl_search_fallback "u" "hello" (by decide) (by decide) (by decide) (by decide)

/-- C1 counterexample: `resolveUrl("asdkjh random text")` is not a
search URL carrying the escaped input; the lowercased text contains the
shortcut key `x` (inside the word `text`), so the shortcut branch fires
and returns `https://x.com`. -/
theorem resolveUrl_search_example_refuted :
    resolveUrl "riyashrestha" "asdkjh random text" = "https://x.com" ∧
    jsIncludes (resolveUrl "riyashrestha" "asdkjh random text")
      (encodeURIComponent "asdkjh random text") = false := by
  decide

/-- C4 (amended): for every text whose lowercased, trimmed form starts
with `http://` or `https://`, `resolveUrl` returns the text trimmed but
otherwise unchanged. -/
theorem resolveUrl_scheme_start (username text : String)
    (h : jsStartsWith (jsTrim (jsToLower text)) "http://" = true ∨
      jsStartsWith (jsTrim (jsToLower text)) "https://" = true) :
    resolveUrl username text = jsTrim text := by
  rcases h with h | h <;> simp [resolveUrl, resolveUrlWith, h]

/-- Witness for C4's amended theorem: a scheme-prefixed input is
returned trimmed, original casing preserved. -/
theorem resolveUrl_scheme_start_witness :
    resolveUrl "u" " HTTP://Foo.com " = jsTrim " HTTP://Foo.com " :=
  resolveUrl_scheme_start "u" " HTTP://Foo.com " (Or.inl (by decide))

/-- C4 counterexample: the claim quantifies over text *containing* a
scheme prefix, but the code tests `startsWith` (and only for `http`
schemes): `"see http://a.com"` contains `http://` yet falls through to
the search branch, and `"ftp://foo"` starts with a scheme yet is not
returned verbatim either. -/
theorem resolveUrl_scheme_contained_refuted :
    (jsIncludes "see http://a.com" "http://" = true ∧
      resolveUrl "riyashrestha" "see http://a.com" ≠ jsTrim "see http://a.com") ∧
    (jsStartsWith "ftp://foo" "ftp://" = true ∧
      resolveUrl "riyashrestha" "ftp://foo" ≠ jsTrim "ftp://foo") := by
  decide

/-- C5: when the lowercased input contains several shortcut keys, the
key of maximal length wins, for any table holding the same bindings in
any insertion order (the sort is by length alone, so order among
distinct-length matches is irrelevant). -/
theorem resolveUrlWith_longest_key_wins (table : List (String × String)) (text k v : String)
    (hnodup : (table.map Prod.fst).Nodup)
    (hmem : (k, v) ∈ table)
    (h1 : jsStartsWith (jsTrim (jsToLower text)) "http://" = false)
    (h2 : jsStartsWith (jsTrim (jsToLower text)) "https://" = false)
    (hmatch : jsIncludes (jsTrim (jsToLower text)) k = true)
    (hlongest : ∀ p ∈ table, p.1 ≠ k → jsIncludes (jsTrim (jsToLower text)) p.1 = true →
      p.1.length < k.length) :
    resolveUrlWith table text = v :=
  resolveUrlWith_finds_longest table text k v hnodup hmem h1 h2 hmatch hlongest

/-- Witness for C5 at `"open my github profile"`: the 17-char key `my
github profile` beats the contained key `github`, both for the real
table order and for the fully reversed table. -/
theorem resolveUrlWith_longest_key_wins_witness :
    resolveUrlWith (SITE_SHORTCUTS "alice") "open my github profile" =
      "https://github.com/alice" ∧
    resolveUrlWith ((SITE_SHORTCUTS "alice").reverse) "open my github profile" =
      "https://github.com/alice" :=
  ⟨resolveUrlWith_longest_key_wins (SITE_SHORTCUTS "alice") "open my github profile"
      "my github profile" "https://github.com/alice"
      (by decide) (by decide) (by decide) (by decide) (by decide) (by decide),
   resolveUrlWith_longest_key_wins ((SITE_SHORTCUTS "alice").reverse) "open my github profile"
      "my github profile" "https://github.com/alice"
      (by decide) (by decide) (by decide) (by decide) (by decide) (by decide)⟩

/-- C9: any input that does not start with `http://`/`https://` after
lowercasing and trimming, whose lowercased form contains the letter `x`
and no other shortcut key, resolves to `https://x.com` — the shortcut
branch fires, so the search fallback is unreachable for such inputs. -/
theorem resolveUrl_x_shortcut (username text : String)
    (h1 : jsStartsWith (jsTrim (jsToLower text)) "http://" = false)
    (h2 : jsStartsWith (jsTrim (jsToLower text)) "https://" = false)
    (hx : jsIncludes (jsTrim (jsToLower text)) "x" = true)
    (hother : ∀ p ∈ SITE_SHORTCUTS username, p.1 ≠ "x" →
      jsIncludes (jsTrim (jsToLower text)) p.1 = false) :
    resolveUrl username text = "https://x.com" := by
  apply resolveUrlWith_finds_longest (SITE_SHORTCUTS username) text "x" "https://x.com"
  · have hkeys : (SITE_SHORTCUTS username).map Prod.fst =
        ["my github profile", "github", "youtube", "google", "gmail", "twitter", "x",
         "reddit", "stackoverflow", "linkedin", "notion", "vercel"] := rfl
    rw [hkeys]
    decide
  · simp [SITE_SHORTCUTS]
  · exact h1
  · exact h2
  · exact hx
  · intro p hp hne hinc
    rw [hother p hp hne] at hinc
    cases hinc

/-- Witness for C9 at `"asdkjh random text"`, whose only shortcut-key
occurrence is the letter `x` inside `text`. -/
theorem resolveUrl_x_shortcut_witness :
    resolveUrl "u" "asdkjh random text" = "https://x.com" :=
  resolveUrl_x_shortcut "u" "asdkjh random text" (by decide) (by decide) (by decide) (by decide)

end Catalyst

namespace Catalyst

/-- C2: when the child closes and its stdout parses as the JSON object
with a string `response` field and a `stats` object, the close handler
answers 200 with `success = true`, `output` equal to the parsed
`response` value, and the `stats` field passed through. -/
theorem onGeminiClose_parsed_success (stdout stderr respText : String) :
    onGeminiClose (some 0) stdout stderr
      (some (Json.obj [("response", Json.str respText), ("stats", Json.obj [])])) =
    ⟨200, true, Json.str respText, some (Json.obj [])⟩ := rfl

/-- C3: when the child closes with exit code 1 and unparsable (or
empty) stdout, the close handler answers 500 with `success = false` and
the trimmed stderr; with empty stderr it falls back to trimmed stdout,
and with both empty to the generic exit-code message. -/
theorem onGeminiClose_exit1_diagnostics (stdout : String) :
    onGeminiClose (some 1) stdout "boom" none = ⟨500, false, Json.str "boom", none⟩ ∧
    onGeminiClose (some 1) "out" "" none = ⟨500, false, Json.str "out", none⟩ ∧
    onGeminiClose (some 1) "" "" none =
      ⟨500, false, Json.str "Gemini exited with code 1", none⟩ :=
  ⟨rfl, rfl, rfl⟩

/-- Witness for C3 with a concrete unparsable stdout. -/
theorem onGeminiClose_exit1_diagnostics_witness :
    onGeminiClose (some 1) "not json" "boom" none = ⟨500, false, Json.str "boom", none⟩ :=
  (onGeminiClose_exit1_diagnostics "not json").1

/-- C8: a spawn failure is reported as `success = false`, with the
install-instruction message exactly when the errno code is `ENOENT`
and with the error's own message otherwise. -/
theorem onSpawnError_distinguishes (err : SpawnErr) :
    (onSpawnError err).status = 500 ∧ (onSpawnError err).success = false ∧
    (err.code = some "ENOENT" →
      (onSpawnError err).output =
        "Gemini CLI not found. Install: npm install -g @google/gemini-cli") ∧
    (err.code ≠ some "ENOENT" → (onSpawnError err).output = err.message) := by
  refine ⟨rfl, rfl, ?_, ?_⟩
  · intro h
    simp [onSpawnError, h]
  · intro h
    simp [onSpawnError, beq_eq_false_iff_ne.mpr h]

/-- Witness for C8: an `ENOENT` failure gets the install message, a
different launch error keeps its own message. -/
theorem onSpawnError_distinguishes_witness :
    (onSpawnError ⟨some "ENOENT", "spawn gemini ENOENT"⟩).output =
      "Gemini CLI not found. Install: npm install -g @google/gemini-cli" ∧
    (onSpawnError ⟨none, "kaboom"⟩).output = "kaboom" :=
  ⟨(onSpawnError_distinguishes ⟨some "ENOENT", "spawn gemini ENOENT"⟩).2.2.1 rfl,
   (onSpawnError_distinguishes ⟨none, "kaboom"⟩).2.2.2 (by decide)⟩

/-- C7: any action other than `launch_gemini` is echoed back
immediately as a success whose output mentions the action, and the
handler's step is a plain response — no process is spawned. -/
theorem doSomething_unknown_action (env : EnvSnapshot) (now timestamp : String)
    (payload : RequestPayload) (h : payload.action ≠ "launch_gemini") :
    doSomethingHandler env now timestamp payload =
      DoSomethingStep.respond
        ⟨200, true, "Action \"" ++ payload.action ++ "\" received at " ++ timestamp⟩ ∧
    jsIncludes ("Action \"" ++ payload.action ++ "\" received at " ++ timestamp)
      payload.action = true := by
  constructor
  · have hb : (payload.action != "launch_gemini") = true := bne_iff_ne.mpr h
    simp [doSomethingHandler, hb]
  · rw [jsIncludes_iff]
    exact ⟨"Action \"".toList, "\" received at ".toList ++ timestamp.toList,
      by simp [toList_append, List.append_assoc]⟩

/-- Witness for C7 at the unsupported action `noop`. -/
theorem doSomething_unknown_action_witness :
    doSomethingHandler ⟨OSKind.linux, "u", "/home/u", "/proj", []⟩ "T0" "T1" ⟨"noop", none⟩ =
      DoSomethingStep.respond
        ⟨200, true, "Action \"" ++ "noop" ++ "\" received at " ++ "T1"⟩ ∧
    jsIncludes ("Action \"" ++ "noop" ++ "\" received at " ++ "T1") "noop" = true :=
  doSomething_unknown_action ⟨OSKind.linux, "u", "/home/u", "/proj", []⟩ "T0" "T1"
    ⟨"noop", none⟩ (by decide)

/-- C10: for `launch_gemini` with present-but-empty prompt, model and
cwd, the JS `||` default substitution kicks in: the agent is spawned
with the literal default prompt appended to the context block, the
default model, and the project directory — never the empty strings. -/
theorem doSomething_empty_option_defaults (env : EnvSnapshot) (now timestamp : String) :
    doSomethingHandler env now timestamp
      ⟨"launch_gemini", some ⟨none, none, some "", some "", some ""⟩⟩ =
    DoSomethingStep.spawnAgent "gemini"
      ["-m", "gemini-2.0-flash", "-y", "--output-format", "json", "-p",
        buildContextBlock env now ++ "Just print the word Hello, nothing else."]
      env.projectDir := rfl

/-- C6: on Linux, when every candidate binary for an explicitly named
browser hint is absent, `buildBrowserCommand` fails with the
browser-not-found error carrying the installed-browser list; a
successful command, for any probe outcome, only ever names one of the
hint's own candidates; and the `/open-browser` endpoint turns the
thrown error into a 400 `success = false` response. -/
theorem buildBrowserCommand_hint_not_found (whichFn : String → Bool)
    (installedBrowsers : List String) (username prompt hint : String)
    (hhint : extractBrowserName prompt = some hint)
    (habsent : ∀ c ∈ linuxCandidates (jsToLower hint), whichFn c = false) :
    (∀ url, buildBrowserCommand whichFn installedBrowsers hint url OSKind.linux =
      Except.error (browserNotFoundMsg hint installedBrowsers)) ∧
    jsIncludes (browserNotFoundMsg hint installedBrowsers)
      (String.intercalate ", " installedBrowsers) = true ∧
    (∀ wf url cmd, buildBrowserCommand wf installedBrowsers hint url OSKind.linux =
        Except.ok cmd →
      ∃ b, b ∈ linuxCandidates (jsToLower hint) ∧ cmd = [b, url]) ∧
    openBrowserHandler whichFn installedBrowsers username OSKind.linux prompt =
      ⟨400, false, browserNotFoundMsg hint installedBrowsers, none, none, none⟩ := by
  have herr : ∀ url, buildBrowserCommand whichFn installedBrowsers hint url OSKind.linux =
      Except.error (browserNotFoundMsg hint installedBrowsers) := by
    intro url
    have hf : (linuxCandidates (jsToLower hint)).find? whichFn = none :=
      List.find?_eq_none.mpr (fun c hc => by simp [habsent c hc])
    simp [buildBrowserCommand, hf]
  refine ⟨herr, ?_, ?_, ?_⟩
  · by_cases hic : String.intercalate ", " installedBrowsers = ""
    · rw [hic]
      exact jsIncludes_empty _
    · rw [jsIncludes_iff]
      have hor : jsOrStr (String.intercalate ", " installedBrowsers) "none detected" =
          String.intercalate ", " installedBrowsers := by
        simp [jsOrStr, hic]
      unfold browserNotFoundMsg
      rw [hor]
      exact ⟨("Browser \"" ++ hint ++ "\" was not found on this system.\n" ++
          "Installed browsers: ").toList,
        "\nTip: If Brave is installed via Snap, make sure /snap/bin is in your PATH.".toList,
        by simp [toList_append, List.append_assoc]⟩
  · intro wf url cmd h
    simp only [buildBrowserCommand] at h
    cases hf : (linuxCandidates (jsToLower hint)).find? wf with
    | none => rw [hf] at h; exact Except.noConfusion h
    | some b =>
      rw [hf] at h
      injection h with h2
      exact ⟨b, List.mem_of_find?_eq_some hf, h2.symm⟩
  · have hmem : hint ∈ BROWSER_NAMES :=
      List.mem_of_find?_eq_some (by simpa [extractBrowserName] using hhint)
    have hne : hint ≠ "default" := by
      intro hd
      rw [hd] at hmem
      exact absurd hmem (by decide)
    have hdef : (hint == "default") = false := beq_eq_false_iff_ne.mpr hne
    simp [openBrowserHandler, hhint, hdef, herr (resolveUrl username prompt)]

/-- Witness for C6: probing a system with no binaries at all for the
explicit hint `brave` extracted from `"open brave"`. -/
theorem buildBrowserCommand_hint_not_found_witness :
    buildBrowserCommand (fun _ => false) ["firefox"] "brave" "https://x.com" OSKind.linux =
      Except.error (browserNotFoundMsg "brave" ["firefox"]) ∧
    openBrowserHandler (fun _ => false) ["firefox"] "u" OSKind.linux "open brave" =
      ⟨400, false, browserNotFoundMsg "brave" ["firefox"], none, none, none⟩ :=
  ⟨(buildBrowserCommand_hint_not_found (fun _ => false) ["firefox"] "u" "open brave" "brave"
      (by decide) (by decide)).1 "https://x.com",
   (buildBrowserCommand_hint_not_found (fun _ => false) ["firefox"] "u" "open brave" "brave"
      (by decide) (by decide)).2.2.2⟩

end Catalyst
